import Mathlib

/-!
Verification development for the poker-league scoring engine
(source file: src/unnamed/part_000, a browser single-page app in JavaScript).

The data model and the operations below are a shallow embedding of the
JavaScript source: Player, Score, Season and Game with their prototype
methods, translated into pure Lean functions.  JavaScript sparse arrays
(used for the per-game score slots) are modelled as lists of optional
values, reference equality between directory-resolved Player objects is
modelled as structural equality on the Player record, and the built-in
stable Array sort is modelled with the stable List.mergeSort.
-/

-- ---------------------------------------------------------------- Player ---

/-- A league player: identity record, compared by identity.  In the source,
players are JavaScript objects compared with reference equality; every
player object is created once through the directory, so structural
equality on the (id, name) record models reference equality. -/
structure Player where
  id : Nat
  name : String
deriving DecidableEq, Repr

-- ------------------------------------------------------------------ Date ---

/-- The date a game was played on, as the JavaScript Date fields the source
reads: getFullYear, getMonth (0-based month), getDate. -/
structure GameDate where
  year : Nat
  month : Nat
  day : Nat
deriving DecidableEq, Repr

-- ----------------------------------------------------------------- Score ---

/-- Scoring for a Player in a sequence of games (constructor Score(player)).
The scores and bonusPoints arrays are sparse in the source, indexed by game
index; a hole (a game the player did not play) is modelled as none. -/
structure Score where
  player : Player
  scores : List (Option Nat)
  bonusPoints : List (Option Nat)
  wins : Nat
deriving DecidableEq, Repr

/-- A fresh Score record, as built by the Score constructor. -/
def Score.new (p : Player) : Score :=
  { player := p, scores := [], bonusPoints := [], wins := 0 }

/-- Writing slot i of a JavaScript sparse array: indices below the length
are overwritten, writing past the end fills the gap with holes. -/
def setSparse (l : List (Option Nat)) (i : Nat) (v : Nat) : List (Option Nat) :=
  if i < l.length then l.set i (some v)
  else l ++ List.replicate (i - l.length) none ++ [some v]

/-- Reading slot i of a sparse array: a hole and an out-of-range read both
give undefined (none). -/
def readSparse (l : List (Option Nat)) (i : Nat) : Option Nat :=
  l.getD i none

/-- Score.prototype.setScore: this.scores[game.index] = score. -/
def Score.setScore (s : Score) (gameIndex : Nat) (v : Nat) : Score :=
  { s with scores := setSparse s.scores gameIndex v }

/-- Score.prototype.setBonusPoints: this.bonusPoints[game.index] = bonusPoints. -/
def Score.setBonusPoints (s : Score) (gameIndex : Nat) (v : Nat) : Score :=
  { s with bonusPoints := setSparse s.bonusPoints gameIndex v }

/-- Score.prototype.win: this.wins++. -/
def Score.win (s : Score) : Score :=
  { s with wins := s.wins + 1 }

/-- Score.prototype.getGameScores: filters the undefined values out of the
sparse scores array. -/
def Score.getGameScores (s : Score) : List Nat :=
  s.scores.filterMap id

/-- Score.prototype.getGamesPlayed. -/
def Score.getGamesPlayed (s : Score) : Nat :=
  s.getGameScores.length

/-- Score.prototype.getBonusPoints: sum of the recorded bonus components
(array sum skips holes, with initial accumulator 0). -/
def Score.getBonusPoints (s : Score) : Nat :=
  (s.bonusPoints.filterMap id).sum

/-- Score.prototype.getLowestWeeklyPoints: 0 when no games were recorded,
otherwise the minimum recorded game total. -/
def Score.getLowestWeeklyPoints (s : Score) : Nat :=
  s.getGameScores.min?.getD 0

/-- Score.prototype.getOverallScore: copy the recorded game totals, sort
them in descending order (stable built-in sort), take the top 9, sum. -/
def Score.getOverallScore (s : Score) : Nat :=
  (((s.getGameScores).mergeSort (fun a b => decide (b ≤ a))).take 9).sum

/-- Score.getOrCreate followed by the caller's mutations, merged into one
functional update: apply f to the first Score whose player matches, or
append f applied to a fresh record when the player has none yet. -/
def updateScore (scores : List Score) (p : Player) (f : Score → Score) : List Score :=
  match scores with
  | [] => [f (Score.new p)]
  | s :: rest => if s.player = p then f s :: rest else s :: updateScore rest p f

/-- Lookup of the Score record for a player (the search loop inside
Score.getOrCreate). -/
def findScore (scores : List Score) (p : Player) : Option Score :=
  scores.find? (fun s => decide (s.player = p))

-- ------------------------------------------------------------------ Game ---

/-- One game: date, finishing order (winner first), knockout records
(perpetrator, victim), plus the fields derived from the previous game.
The source constructor initialises index to null; it is modelled as 0 and
is only meaningful once Season.addGame has assigned it.  The season
back-link and the narrative story log are omitted: neither affects any
scoring computation. -/
structure Game where
  index : Nat
  date : GameDate
  results : List Player
  knockouts : List (Player × Player)
  bountyPlayers : Option (List Player)
  fishChipper : Option Player
deriving DecidableEq, Repr

/-- The Game constructor: stores its arguments and initialises the derived
fields to null.  It performs no validation of the results list. -/
def Game.new (date : GameDate) (results : List Player)
    (knockouts : List (Player × Player)) : Game :=
  { index := 0, date := date, results := results, knockouts := knockouts
  , bountyPlayers := none, fishChipper := none }

/-- Game.DEFAULT_POINTS: distribution of points by finishing position,
winner first. -/
def Game.DEFAULT_POINTS : List Nat := [15, 13, 11, 9, 7, 5, 4, 3, 2, 1]

/-- Game.FISH_CHIP_BONUS. -/
def Game.FISH_CHIP_BONUS : Nat := 1

/-- Game.BOUNTY_BONUS. -/
def Game.BOUNTY_BONUS : Nat := 1

/-- The while loop in calculateScores that pushes extraPoints, extraPoints-1,
down to 1 onto the points table. -/
def extraPointsList : Nat → List Nat
  | 0 => []
  | k + 1 => (k + 1) :: extraPointsList k

/-- The points table built at the top of Game.prototype.calculateScores for
a game with n finishers: the default table, adjusted when n exceeds its
length by adding the surplus to every entry and appending the countdown. -/
def Game.pointsTable (n : Nat) : List Nat :=
  if n > Game.DEFAULT_POINTS.length then
    Game.DEFAULT_POINTS.map (fun s => s + (n - Game.DEFAULT_POINTS.length))
      ++ extraPointsList (n - Game.DEFAULT_POINTS.length)
  else Game.DEFAULT_POINTS

/-- Game.prototype.getWinner: results[0]. -/
def Game.getWinner (g : Game) : Option Player :=
  g.results.head?

/-- Game.prototype.getPaidPlayers: the first (n - n % 3) / 3 finishers. -/
def Game.getPaidPlayers (g : Game) : List Player :=
  g.results.take ((g.results.length - g.results.length % 3) / 3)

/-- The bounty loop of setPreviousGameInfo: scan the previous results
front-to-back, keep players present in this game's results, stop as soon
as three have been collected. -/
def collectBountyLoop (res : List Player) : List Player → List Player → List Player
  | [], acc => acc
  | p :: rest, acc =>
    if acc.length < 3 then
      collectBountyLoop res rest (if p ∈ res then acc ++ [p] else acc)
    else acc

/-- The fish-chip loop of setPreviousGameInfo: scan a list for the first
player present in this game's results (applied to the reversed previous
results). -/
def findFishChipLoop (res : List Player) : List Player → Option Player
  | [] => none
  | p :: rest => if p ∈ res then some p else findFishChipLoop res rest

/-- Game.prototype.setPreviousGameInfo: derive bountyPlayers and fishChipper
from the previous game.  When the back-to-front scan finds nobody the
fishChipper field keeps its previous value (null on a fresh game). -/
def Game.setPreviousGameInfo (g : Game) (previousGame : Game) : Game :=
  { g with
    bountyPlayers := some (collectBountyLoop g.results previousGame.results [])
  , fishChipper :=
      match findFishChipLoop g.results previousGame.results.reverse with
      | some p => some p
      | none => g.fishChipper }

/-- Game.prototype.calculateFishChipBonus: one bonus point when the player
is the fishChipper and finished in the money. -/
def Game.calculateFishChipBonus (g : Game) (player : Player) : Nat :=
  if g.fishChipper = some player then
    if player ∈ g.getPaidPlayers then Game.FISH_CHIP_BONUS else 0
  else 0

/-- Game.prototype.calculateBountyBonus: when bounties have been issued, one
bonus point per knockout by this player whose victim carries a bounty. -/
def Game.calculateBountyBonus (g : Game) (player : Player) : Nat :=
  match g.bountyPlayers with
  | none => 0
  | some bps =>
    g.knockouts.foldl
      (fun acc ko =>
        if ko.1 = player ∧ ko.2 ∈ bps then acc + Game.BOUNTY_BONUS else acc) 0

/-- The body of the scoring loop of calculateScores for finisher i: credit a
win to the winner, then record placement points plus bonuses and the bonus
component for this game's index. -/
def scoreStep (g : Game) (pts : List Nat) (i : Nat) (p : Player) (s : Score) : Score :=
  let placeScore := pts.getD i 0
  let bonus := g.calculateFishChipBonus p + g.calculateBountyBonus p
  let s := if i = 0 then s.win else s
  (s.setScore g.index (placeScore + bonus)).setBonusPoints g.index bonus

/-- The scoring loop of calculateScores over the (position, finisher) pairs
of the results list. -/
def foldPairs (g : Game) (pts : List Nat) (pairs : List (Nat × Player))
    (scores : List Score) : List Score :=
  pairs.foldl (fun acc ip => updateScore acc ip.2 (scoreStep g pts ip.1 ip.2)) scores

/-- Game.prototype.calculateScores: walk the results in finishing order and
write each finisher's score for this game into the season's Score
collection (creating records on first appearance). -/
def Game.calculateScores (g : Game) (scores : List Score) : List Score :=
  foldPairs g (Game.pointsTable g.results.length) g.results.enum scores

/-- The positions at which player q finishes in a (position, finisher) pair
list (a player appearing once has exactly one). -/
def occIdxs (q : Player) (pairs : List (Nat × Player)) : List Nat :=
  (pairs.filter (fun ip => decide (ip.2 = q))).map Prod.fst

/-- The cumulative effect of the scoring loop on one player's record: the
scoring step applied once per finishing position held by that player. -/
def applyOccs (g : Game) (pts : List Nat) (p : Player) (is : List Nat)
    (r : Score) : Score :=
  is.foldl (fun r i => scoreStep g pts i p r) r

-- ---------------------------------------------------------------- Season ---

/-- A season: name, games played, and Score records of everyone who has
played in it. -/
structure Season where
  name : String
  games : List Game
  scores : List Score
deriving DecidableEq, Repr

/-- The Season constructor. -/
def Season.new (name : String) : Season :=
  { name := name, games := [], scores := [] }

/-- Season.prototype.sortScores: sort the Score collection by overall score,
descending.  The built-in Array sort is stable, modelled by mergeSort. -/
def Season.sortScoresFn (scores : List Score) : List Score :=
  scores.mergeSort (fun a b => decide (b.getOverallScore ≤ a.getOverallScore))

/-- The first half of Season.prototype.addGame: tell the game about the
previous game when there is one, then assign it the next index. -/
def Season.prepareGame (s : Season) (game : Game) : Game :=
  let game :=
    match s.games.getLast? with
    | some prev => game.setPreviousGameInfo prev
    | none => game
  { game with index := s.games.length }

/-- Season.prototype.addGame(game, sortScores): prepare the game, append it,
compute its scores into the Score collection, and re-sort unless the
sortScores flag suppresses it (the flag is truthy to skip the sort). -/
def Season.addGame (s : Season) (game : Game) (sortScores : Bool) : Season :=
  let g := s.prepareGame game
  let scores := g.calculateScores s.scores
  { s with
    games := s.games ++ [g]
  , scores := if sortScores then scores else Season.sortScoresFn scores }

-- ------------------------------------------------------- Persisted shape ---

/-- The plain record Game.prototype.toObject produces: the date as the
(year, month + 1, day) components joined in the stored date string, player
ids for the results, and id pairs for the knockouts. -/
structure GameObject where
  date : Nat × Nat × Nat
  results : List Nat
  knockouts : List (Nat × Nat)
deriving DecidableEq, Repr

/-- The plain record Season.prototype.toObject produces. -/
structure SeasonObject where
  name : String
  games : List GameObject
deriving DecidableEq, Repr

/-- Game.prototype.toObject. -/
def Game.toObject (g : Game) : GameObject :=
  { date := (g.date.year, g.date.month + 1, g.date.day)
  , results := g.results.map Player.id
  , knockouts := g.knockouts.map (fun ko => (ko.1.id, ko.2.id)) }

/-- Resolution of a stored player id through the Player directory
(players[id] in the source; a dangling id would be undefined and is
modelled by a default, excluded by the directory hypotheses). -/
def resolvePlayer (players : List Player) (id : Nat) : Player :=
  players.getD id { id := 0, name := "" }

/-- Game.fromObject: rebuild a fresh Game from the stored record, resolving
ids through the directory and undoing the month shift of toObject. -/
def Game.fromObject (players : List Player) (obj : GameObject) : Game :=
  Game.new
    { year := obj.date.1, month := obj.date.2.1 - 1, day := obj.date.2.2 }
    (obj.results.map (resolvePlayer players))
    (obj.knockouts.map (fun ko => (resolvePlayer players ko.1, resolvePlayer players ko.2)))

/-- Season.prototype.toObject: only the name and the raw per-game records
are persisted; scores and the derived bounty state are not. -/
def Season.toObject (s : Season) : SeasonObject :=
  { name := s.name, games := s.games.map Game.toObject }

/-- Season.fromObject: rebuild a Season by replaying addGame over the stored
games in stored order.  (The trailing season.sortScores in the source is a
property access, not a call, and has no effect; every addGame replay
already sorts because its flag is false.) -/
def Season.fromObject (players : List Player) (obj : SeasonObject) : Season :=
  obj.games.foldl
    (fun acc gameObj => acc.addGame (Game.fromObject players gameObj) false)
    (Season.new obj.name)

/-- Building a season the way the UI does: addGame for each new game in
chronological order, with the sort not suppressed. -/
def Season.build (name : String) (gs : List Game) : Season :=
  gs.foldl (fun s g => s.addGame g false) (Season.new name)

-- --------------------------------------------- Spec-side checked builder ---

/-- Rejection reason of the spec's checked construction. -/
inductive GameConstructionError where
  | invalidGame
deriving DecidableEq, Repr

/-- Modelled from the spec: the source Game constructor performs no
validation, while the spec's error-handling section demands that a game
with an empty or duplicate-player results list be rejected at construction
with an InvalidGameError.  This definition follows the spec's words and is
compared against the source constructor Game.new. -/
def Game.newChecked (date : GameDate) (results : List Player)
    (knockouts : List (Player × Player)) : Except GameConstructionError Game :=
  if results.isEmpty ∨ ¬ results.Nodup then
    Except.error GameConstructionError.invalidGame
  else
    Except.ok (Game.new date results knockouts)

-- ---------------------------------------------------------------- Fixtures ---

/-- Concrete player fixture. -/
def playerA : Player := { id := 0, name := "A" }

/-- Concrete player fixture. -/
def playerB : Player := { id := 1, name := "B" }

/-- Concrete player fixture. -/
def playerC : Player := { id := 2, name := "C" }

/-- Concrete player fixture. -/
def playerD : Player := { id := 3, name := "D" }

/-- Concrete player fixture. -/
def playerE : Player := { id := 4, name := "E" }

/-- Concrete player fixture. -/
def playerF : Player := { id := 5, name := "F" }

/-- Concrete date fixture. -/
def dateW : GameDate := { year := 2012, month := 0, day := 5 }

/-- Concrete six-finisher game fixture. -/
def gameW1 : Game :=
  Game.new dateW [playerA, playerB, playerC, playerD, playerE, playerF]
    [(playerA, playerB)]

/-- Concrete follow-up game fixture with the same six players. -/
def gameW2 : Game :=
  Game.new dateW [playerC, playerA, playerB, playerD, playerE, playerF]
    [(playerB, playerA)]

/-- A one-game season fixture. -/
def seasonW1 : Season := (Season.new "league").addGame gameW1 false

/-- A two-game season fixture. -/
def seasonW2 : Season := seasonW1.addGame gameW2 false

/-- The player directory fixture the games above draw from. -/
def directoryW : List Player :=
  [playerA, playerB, playerC, playerD, playerE, playerF]

/-- A season fixture with one played game and its Score collection written
out explicitly (the collection Season.addGame would produce for gameW1,
already in descending overall-score order). -/
def seasonX : Season :=
  { name := "league"
  , games := [{ index := 0, date := dateW
              , results := [playerA, playerB, playerC, playerD, playerE, playerF]
              , knockouts := [(playerA, playerB)]
              , bountyPlayers := none, fishChipper := none }]
  , scores :=
      [ { player := playerA, scores := [some 15], bonusPoints := [some 0], wins := 1 }
      , { player := playerB, scores := [some 13], bonusPoints := [some 0], wins := 0 }
      , { player := playerC, scores := [some 11], bonusPoints := [some 0], wins := 0 }
      , { player := playerD, scores := [some 9], bonusPoints := [some 0], wins := 0 }
      , { player := playerE, scores := [some 7], bonusPoints := [some 0], wins := 0 }
      , { player := playerF, scores := [some 5], bonusPoints := [some 0], wins := 0 } ] }

-- ================================================================ Theorems ===

-- ------------------------------------------------------- Points table (C1) ---

theorem extraPointsList_length : ∀ k, (extraPointsList k).length = k
  | 0 => rfl
  | k + 1 => by simp [extraPointsList, extraPointsList_length k]

theorem extraPointsList_eq_countdown :
    ∀ k, extraPointsList k = (List.range k).map (fun i => k - i)
  | 0 => rfl
  | k + 1 => by
    rw [List.range_succ_eq_map]
    simp only [List.map_cons, List.map_map]
    rw [extraPointsList, extraPointsList_eq_countdown k]
    simp [Function.comp, Nat.succ_sub_succ]

theorem extraPointsList_getLast (k : Nat) : (extraPointsList (k + 1)).getLast? = some 1 := by
  induction k with
  | zero => rfl
  | succ n ih =>
    show ((n + 2) :: (n + 1) :: extraPointsList n).getLast? = some 1
    rw [List.getLast?_cons_cons]
    exact ih

/-- C1: the placement points used by calculateScores for a game with n
finishers are, for n at most 10, exactly the first n entries of the base
table, and for larger n the base table shifted up by extra = n - 10
followed by the countdown extra, extra - 1, down to 1, so that first place
takes 15 + extra points and the table has n entries ending in exactly 1. -/
theorem claim_C1_placement_points (n : Nat) :
    (n ≤ 10 → Game.pointsTable n = Game.DEFAULT_POINTS ∧
      (Game.pointsTable n).take n = Game.DEFAULT_POINTS.take n) ∧
    (10 < n →
      Game.pointsTable n =
        Game.DEFAULT_POINTS.map (fun s => s + (n - 10)) ++
          (List.range (n - 10)).map (fun i => n - 10 - i) ∧
      (Game.pointsTable n).length = n ∧
      (Game.pointsTable n).head? = some (15 + (n - 10)) ∧
      (Game.pointsTable n).getLast? = some 1) := by
  have hlen : Game.DEFAULT_POINTS.length = 10 := rfl
  constructor
  · intro h
    have hng : ¬ (n > Game.DEFAULT_POINTS.length) := by omega
    rw [Game.pointsTable, if_neg hng]
    exact ⟨rfl, rfl⟩
  · intro h
    have hg : n > Game.DEFAULT_POINTS.length := by omega
    have htab : Game.pointsTable n =
        Game.DEFAULT_POINTS.map (fun s => s + (n - 10)) ++ extraPointsList (n - 10) := by
      rw [Game.pointsTable, if_pos hg, hlen]
    refine ⟨?_, ?_, ?_, ?_⟩
    · rw [htab, extraPointsList_eq_countdown]
    · rw [htab]
      simp [extraPointsList_length, Game.DEFAULT_POINTS]
      omega
    · rw [htab]
      simp [Game.DEFAULT_POINTS]
    · rw [htab, List.getLast?_append]
      have h1 : n - 10 = (n - 11) + 1 := by omega
      rw [h1, extraPointsList_getLast]
      rfl

/-- Witness for C1 at n = 7 and n = 13. -/
theorem claim_C1_placement_points_witness :
    (Game.pointsTable 7 = Game.DEFAULT_POINTS ∧
      (Game.pointsTable 7).take 7 = Game.DEFAULT_POINTS.take 7) ∧
    (Game.pointsTable 13 =
        Game.DEFAULT_POINTS.map (fun s => s + (13 - 10)) ++
          (List.range (13 - 10)).map (fun i => 13 - 10 - i) ∧
      (Game.pointsTable 13).length = 13 ∧
      (Game.pointsTable 13).head? = some (15 + (13 - 10)) ∧
      (Game.pointsTable 13).getLast? = some 1) :=
  ⟨(claim_C1_placement_points 7).1 (by decide),
   (claim_C1_placement_points 13).2 (by decide)⟩

-- ------------------------------------------------------ Overall score (C2) ---

theorem descBool_trans : ∀ a b c : Nat,
    (fun a b : Nat => decide (b ≤ a)) a b → (fun a b : Nat => decide (b ≤ a)) b c →
    (fun a b : Nat => decide (b ≤ a)) a c := by
  intro a b c hab hbc
  simp only [decide_eq_true_eq] at *
  omega

theorem descBool_total : ∀ a b : Nat,
    (fun a b : Nat => decide (b ≤ a)) a b || (fun a b : Nat => decide (b ≤ a)) b a := by
  intro a b
  simp only [Bool.or_eq_true, decide_eq_true_eq]
  omega

/-- C2: the overall score is the sum of the top 9 recorded game totals: it
equals the sum of the first 9 entries of a descending-sorted permutation
of the recorded totals, it equals the plain sum whenever at most 9 games
are recorded, and it is 0 with no recorded games. -/
theorem claim_C2_overall_score_top9 (s : Score) :
    s.getOverallScore =
      (((s.getGameScores).mergeSort (fun a b => decide (b ≤ a))).take 9).sum ∧
    List.Perm ((s.getGameScores).mergeSort (fun a b => decide (b ≤ a))) s.getGameScores ∧
    ((s.getGameScores).mergeSort (fun a b => decide (b ≤ a))).Pairwise (fun a b => b ≤ a) ∧
    (s.getGameScores.length ≤ 9 → s.getOverallScore = s.getGameScores.sum) ∧
    (s.getGameScores = [] → s.getOverallScore = 0) := by
  have hperm := List.mergeSort_perm s.getGameScores (fun a b => decide (b ≤ a))
  refine ⟨rfl, hperm, ?_, ?_, ?_⟩
  · have := List.sorted_mergeSort descBool_trans descBool_total s.getGameScores
    exact this.imp (fun h => by simpa using h)
  · intro h9
    have hlen : ((s.getGameScores).mergeSort (fun a b => decide (b ≤ a))).length ≤ 9 := by
      rw [hperm.length_eq]; exact h9
    rw [Score.getOverallScore, List.take_of_length_le hlen]
    exact hperm.sum_eq
  · intro h0
    rw [Score.getOverallScore, h0, List.mergeSort_nil]
    rfl

/-- Witness for C2 at a record with five recorded games. -/
theorem claim_C2_overall_score_top9_witness :
    ({ player := { id := 0, name := "A" }
     , scores := [some 3, none, some 7, some 2, some 9, some 4]
     , bonusPoints := [], wins := 0 } : Score).getGameScores.length ≤ 9 ∧
    ({ player := { id := 0, name := "A" }
     , scores := [some 3, none, some 7, some 2, some 9, some 4]
     , bonusPoints := [], wins := 0 } : Score).getOverallScore =
      ({ player := { id := 0, name := "A" }
       , scores := [some 3, none, some 7, some 2, some 9, some 4]
       , bonusPoints := [], wins := 0 } : Score).getGameScores.sum :=
  ⟨by decide,
   (claim_C2_overall_score_top9
     { player := { id := 0, name := "A" }
     , scores := [some 3, none, some 7, some 2, some 9, some 4]
     , bonusPoints := [], wins := 0 }).2.2.2.1 (by decide)⟩

-- ---------------------------------------------------- Fish-chip bonus (C3) ---

theorem mem_take_iff_pos {α : Type} (l : List α) (k : Nat) (a : α) :
    a ∈ l.take k ↔ ∃ i, i < k ∧ l.get? i = some a := by
  constructor
  · intro h
    obtain ⟨⟨i, hi⟩, hg⟩ := List.mem_iff_get.mp h
    have hik : i < k := by
      have := hi
      rw [List.length_take] at this
      omega
    refine ⟨i, hik, ?_⟩
    rw [← List.get?_take hik]
    exact (List.get?_eq_get hi).trans (congrArg some hg)
  · rintro ⟨i, hik, hg⟩
    have : (l.take k).get? i = some a := by rw [List.get?_take hik]; exact hg
    exact List.get?_mem this

/-- C3: the fish-chip bonus is at most one point, and is exactly one point
precisely when the player carries the fish-chip and finishes at one of the
first floor(N/3) positions, the paid set being the first floor(N/3)
finishers. -/
theorem claim_C3_fish_chip_bonus (g : Game) (p : Player) :
    g.getPaidPlayers = g.results.take (g.results.length / 3) ∧
    g.calculateFishChipBonus p ≤ 1 ∧
    (g.calculateFishChipBonus p = 1 ↔
      g.fishChipper = some p ∧
        ∃ i, i < g.results.length / 3 ∧ g.results.get? i = some p) := by
  have hpaid : g.getPaidPlayers = g.results.take (g.results.length / 3) := by
    rw [Game.getPaidPlayers]
    have : (g.results.length - g.results.length % 3) / 3 = g.results.length / 3 := by omega
    rw [this]
  refine ⟨hpaid, ?_, ?_⟩
  · rw [Game.calculateFishChipBonus]
    split
    · split
      · exact Nat.le_refl 1
      · exact Nat.zero_le 1
    · exact Nat.zero_le 1
  · rw [Game.calculateFishChipBonus]
    by_cases hfc : g.fishChipper = some p
    · rw [if_pos hfc]
      by_cases hmem : p ∈ g.getPaidPlayers
      · rw [if_pos hmem]
        have hex := (mem_take_iff_pos g.results (g.results.length / 3) p).mp
          (hpaid ▸ hmem)
        exact ⟨fun _ => ⟨hfc, hex⟩, fun _ => rfl⟩
      · rw [if_neg hmem]
        constructor
        · intro h01
          exact absurd h01 (by omega)
        · rintro ⟨-, hex⟩
          exact absurd (hpaid ▸ (mem_take_iff_pos g.results _ p).mpr hex) hmem
    · rw [if_neg hfc]
      constructor
      · intro h01
        exact absurd h01 (by omega)
      · rintro ⟨hfc2, -⟩
        exact absurd hfc2 hfc

-- ------------------------------------------------------- Bounty bonus (C4) ---

theorem bountyFoldAux (p : Player) (bps : List Player) :
    ∀ (kos : List (Player × Player)) (acc : Nat),
      kos.foldl (fun acc ko =>
          if ko.1 = p ∧ ko.2 ∈ bps then acc + Game.BOUNTY_BONUS else acc) acc =
        acc + Game.BOUNTY_BONUS *
          (kos.filter (fun ko => decide (ko.1 = p) && decide (ko.2 ∈ bps))).length
  | [], acc => by simp
  | ko :: rest, acc => by
    rw [List.foldl_cons, List.filter_cons]
    by_cases h : ko.1 = p ∧ ko.2 ∈ bps
    · rw [if_pos h, bountyFoldAux p bps rest (acc + Game.BOUNTY_BONUS)]
      have hb : (decide (ko.1 = p) && decide (ko.2 ∈ bps)) = true := by
        simp [h.1, h.2]
      rw [if_pos hb]
      simp [Nat.mul_add, Nat.mul_succ]
      omega
    · rw [if_neg h, bountyFoldAux p bps rest acc]
      have hb : ¬ ((decide (ko.1 = p) && decide (ko.2 ∈ bps)) = true) := by
        simpa using h
      rw [if_neg hb]

/-- C4: the bounty bonus equals one point per knockout record of this game
whose perpetrator is the player and whose victim is a bounty player,
summed without cap; in particular a player with two qualifying knockouts
in one game earns exactly 2 points from this source. -/
theorem claim_C4_bounty_bonus (g : Game) (p : Player) :
    g.calculateBountyBonus p =
      Game.BOUNTY_BONUS *
        (g.knockouts.filter
          (fun ko => decide (ko.1 = p) &&
            decide (ko.2 ∈ g.bountyPlayers.getD []))).length ∧
    Game.calculateBountyBonus
      { index := 0, date := ⟨2012, 0, 5⟩
      , results := [⟨0, "A"⟩, ⟨1, "B"⟩, ⟨2, "C"⟩]
      , knockouts := [(⟨0, "A"⟩, ⟨1, "B"⟩), (⟨0, "A"⟩, ⟨2, "C"⟩)]
      , bountyPlayers := some [⟨1, "B"⟩, ⟨2, "C"⟩]
      , fishChipper := none } ⟨0, "A"⟩ = 2 := by
  constructor
  · cases hb : g.bountyPlayers with
    | none =>
      simp [Game.calculateBountyBonus, hb]
    | some bps =>
      simp only [Game.calculateBountyBonus, hb, Option.getD_some]
      rw [bountyFoldAux, Nat.zero_add]
  · decide

-- -------------------------------------------------- Previous-game info (C5) ---

theorem collectBountyLoop_eq (res : List Player) :
    ∀ (prev : List Player) (acc : List Player), acc.length ≤ 3 →
      collectBountyLoop res prev acc =
        (acc ++ prev.filter (fun p => decide (p ∈ res))).take 3
  | [], acc, h => by
    rw [collectBountyLoop, List.filter_nil, List.append_nil,
      List.take_of_length_le h]
  | p :: rest, acc, h => by
    rw [collectBountyLoop, List.filter_cons]
    by_cases h3 : acc.length < 3
    · rw [if_pos h3]
      by_cases hm : p ∈ res
      · have hd : decide (p ∈ res) = true := by simpa using hm
        rw [if_pos hm, hd, if_pos rfl,
          collectBountyLoop_eq res rest (acc ++ [p]) (by simp; omega)]
        rw [List.append_assoc]
        rfl
      · have hd : ¬ (decide (p ∈ res) = true) := by simpa using hm
        rw [if_neg hm, if_neg hd]
        exact collectBountyLoop_eq res rest acc (by omega)
    · have h33 : acc.length = 3 := by omega
      rw [if_neg h3]
      exact (List.take_left' h33).symm

theorem findFishChipLoop_eq (res : List Player) :
    ∀ l : List Player, findFishChipLoop res l = l.find? (fun p => decide (p ∈ res))
  | [] => rfl
  | p :: rest => by
    rw [findFishChipLoop, List.find?_cons]
    by_cases hm : p ∈ res
    · have hd : decide (p ∈ res) = true := by simpa using hm
      rw [if_pos hm, hd]
    · have hd : decide (p ∈ res) = false := by simpa using hm
      rw [if_neg hm, hd]
      exact findFishChipLoop_eq res rest

theorem prepareGame_results (s : Season) (g : Game) :
    (s.prepareGame g).results = g.results := by
  rw [Season.prepareGame]
  cases h : s.games.getLast? with
  | none => rfl
  | some prev => rfl

/-- C5: when a game is added to a season that already has games, its
bountyPlayers become the first three finishers of the previous game who
play again (front-to-back scan of the previous results, capped at three)
and its fishChipper becomes the lowest-placed previous finisher who plays
again (back-to-front scan), none when nobody overlaps; for the first game
of a season both fields stay none and both bonus sources yield zero. -/
theorem claim_C5_previous_game_info (s : Season) (g : Game)
    (hb : g.bountyPlayers = none) (hf : g.fishChipper = none) :
    ∃ g', (s.addGame g false).games.getLast? = some g' ∧
      g'.results = g.results ∧
      (s.games = [] →
        g'.bountyPlayers = none ∧ g'.fishChipper = none ∧
        ∀ p, g'.calculateFishChipBonus p = 0 ∧ g'.calculateBountyBonus p = 0) ∧
      (∀ prev, s.games.getLast? = some prev →
        g'.bountyPlayers =
          some ((prev.results.filter (fun p => decide (p ∈ g.results))).take 3) ∧
        g'.fishChipper = prev.results.reverse.find? (fun p => decide (p ∈ g.results))) := by
  refine ⟨s.prepareGame g, List.getLast?_concat _, prepareGame_results s g, ?_, ?_⟩
  · intro hnil
    have hlast : s.games.getLast? = none := by rw [hnil]; rfl
    have hg' : s.prepareGame g = { g with index := s.games.length } := by
      rw [Season.prepareGame, hlast]
    rw [hg']
    refine ⟨hb, hf, fun p => ⟨?_, ?_⟩⟩
    · rw [Game.calculateFishChipBonus]
      have : ({ g with index := s.games.length } : Game).fishChipper ≠ some p := by
        simp [hf]
      rw [if_neg this]
    · rw [Game.calculateBountyBonus]
      simp [hb]
  · intro prev hlast
    have hg' : s.prepareGame g =
        { g.setPreviousGameInfo prev with index := s.games.length } := by
      rw [Season.prepareGame, hlast]
    rw [hg', Game.setPreviousGameInfo]
    constructor
    · show some (collectBountyLoop g.results prev.results []) = _
      rw [collectBountyLoop_eq g.results prev.results [] (by simp)]
      rfl
    · show (match findFishChipLoop g.results prev.results.reverse with
        | some p => some p
        | none => g.fishChipper) = _
      rw [findFishChipLoop_eq]
      cases hfind : prev.results.reverse.find? (fun p => decide (p ∈ g.results)) with
      | none => simpa using hf
      | some p => rfl

/-- Witness for C5: the second fixture game inherits bounty players C, A, B
and fish-chipper F from the first fixture game. -/
theorem claim_C5_previous_game_info_witness :
    gameW2.bountyPlayers = none ∧ gameW2.fishChipper = none ∧
    (∃ g', (seasonW1.addGame gameW2 false).games.getLast? = some g' ∧
      g'.results = gameW2.results ∧
      (seasonW1.games = [] →
        g'.bountyPlayers = none ∧ g'.fishChipper = none ∧
        ∀ p, g'.calculateFishChipBonus p = 0 ∧ g'.calculateBountyBonus p = 0) ∧
      (∀ prev, seasonW1.games.getLast? = some prev →
        g'.bountyPlayers =
          some ((prev.results.filter (fun p => decide (p ∈ gameW2.results))).take 3) ∧
        g'.fishChipper =
          prev.results.reverse.find? (fun p => decide (p ∈ gameW2.results)))) :=
  ⟨rfl, rfl, claim_C5_previous_game_info seasonW1 gameW2 rfl rfl⟩

-- ---------------------------------------------------- Sparse array facts ---

theorem readSparse_setSparse_self (l : List (Option Nat)) (i : Nat) (v : Nat) :
    readSparse (setSparse l i v) i = some v := by
  rw [readSparse, setSparse, List.getD_eq_getElem?_getD]
  split
  · next h => simp [List.getElem?_set_self h]
  · next h =>
    rw [List.getElem?_append]
    have hlen : (l ++ List.replicate (i - l.length) none).length = i := by
      simp; omega
    rw [if_neg (by omega), hlen, Nat.sub_self]
    rfl

theorem readSparse_setSparse_ne (l : List (Option Nat)) (i j : Nat) (v : Nat)
    (h : j ≠ i) : readSparse (setSparse l i v) j = readSparse l j := by
  rw [readSparse, readSparse, setSparse, List.getD_eq_getElem?_getD,
    List.getD_eq_getElem?_getD]
  split
  · next hi => rw [List.getElem?_set_ne (Ne.symm h)]
  · next hi =>
    rw [List.getElem?_append]
    have hlen : (l ++ List.replicate (i - l.length) none).length = i := by
      simp; omega
    rw [hlen]
    by_cases hj : j < i
    · rw [if_pos hj, List.getElem?_append]
      by_cases hjl : j < l.length
      · rw [if_pos hjl]
      · rw [if_neg hjl, List.getElem?_replicate, if_pos (by omega)]
        have : l.length ≤ j := by omega
        rw [List.getElem?_eq_none this]
        rfl
    · rw [if_neg hj]
      have h1 : ([some v] : List (Option Nat))[j - i]? = none := by
        apply List.getElem?_eq_none
        simp
        omega
      have h2 : l[j]? = none := List.getElem?_eq_none (by omega)
      rw [h1, h2]

theorem setSparse_setSparse (l : List (Option Nat)) (i : Nat) (v v' : Nat) :
    setSparse (setSparse l i v) i v' = setSparse l i v' := by
  by_cases h : i < l.length
  · have h1 : setSparse l i v = l.set i (some v) := by rw [setSparse, if_pos h]
    have h2 : setSparse l i v' = l.set i (some v') := by rw [setSparse, if_pos h]
    have h3 : setSparse (l.set i (some v)) i v' = (l.set i (some v)).set i (some v') := by
      rw [setSparse, if_pos (by simpa using h)]
    rw [h1, h3, List.set_set, h2]
  · have h1 : setSparse l i v =
        l ++ List.replicate (i - l.length) none ++ [some v] := by
      rw [setSparse, if_neg h]
    have h2 : setSparse l i v' =
        l ++ List.replicate (i - l.length) none ++ [some v'] := by
      rw [setSparse, if_neg h]
    have hlen : (l ++ List.replicate (i - l.length) none ++ [some v]).length = i + 1 := by
      simp; omega
    have hl2 : (l ++ List.replicate (i - l.length) none).length = i := by
      simp; omega
    have h3 : setSparse (l ++ List.replicate (i - l.length) none ++ [some v]) i v' =
        l ++ List.replicate (i - l.length) none ++ [some v'] := by
      rw [setSparse, if_pos (by omega), List.set_append, if_neg (by omega),
        hl2, Nat.sub_self]
      rfl
    rw [h1, h3, h2]

-- --------------------------------------------------- Scoring step facts ---

theorem scoreStep_player (g : Game) (pts : List Nat) (i : Nat) (p : Player)
    (s : Score) : (scoreStep g pts i p s).player = s.player := by
  rw [scoreStep]
  by_cases h : i = 0 <;>
    simp [h, Score.setScore, Score.setBonusPoints, Score.win]

theorem scoreStep_scores (g : Game) (pts : List Nat) (i : Nat) (p : Player)
    (s : Score) :
    (scoreStep g pts i p s).scores =
      setSparse s.scores g.index
        (pts.getD i 0 + (g.calculateFishChipBonus p + g.calculateBountyBonus p)) := by
  rw [scoreStep]
  by_cases h : i = 0 <;>
    simp [h, Score.setScore, Score.setBonusPoints, Score.win]

theorem scoreStep_bonusPoints (g : Game) (pts : List Nat) (i : Nat) (p : Player)
    (s : Score) :
    (scoreStep g pts i p s).bonusPoints =
      setSparse s.bonusPoints g.index
        (g.calculateFishChipBonus p + g.calculateBountyBonus p) := by
  rw [scoreStep]
  by_cases h : i = 0 <;>
    simp [h, Score.setScore, Score.setBonusPoints, Score.win]

theorem scoreStep_wins (g : Game) (pts : List Nat) (i : Nat) (p : Player)
    (s : Score) :
    (scoreStep g pts i p s).wins = s.wins + (if i = 0 then 1 else 0) := by
  rw [scoreStep]
  by_cases h : i = 0 <;>
    simp [h, Score.setScore, Score.setBonusPoints, Score.win]

-- --------------------------------------------------- Record update facts ---

theorem findScore_cons (s : Score) (rest : List Score) (q : Player) :
    findScore (s :: rest) q = if s.player = q then some s else findScore rest q := by
  rw [findScore, List.find?_cons]
  by_cases h : s.player = q
  · simp [h]
  · have hd : (decide (s.player = q)) = false := by simp [h]
    rw [hd, if_neg h]
    rfl

theorem findScore_updateScore (q p : Player) (f : Score → Score)
    (hp : ∀ r, (f r).player = r.player) :
    ∀ scores : List Score,
      findScore (updateScore scores p f) q =
        if q = p then some (f ((findScore scores p).getD (Score.new p)))
        else findScore scores q
  | [] => by
    rw [updateScore, findScore_cons, hp]
    by_cases h : q = p
    · rw [if_pos (show (Score.new p).player = q by rw [h]; rfl), if_pos h]
      rfl
    · rw [if_neg (show ¬ (Score.new p).player = q from fun hc => h (by
        rw [← hc]; rfl)), if_neg h]
  | s :: rest => by
    rw [updateScore]
    by_cases hs : s.player = p
    · rw [if_pos hs]
      have hRHS : findScore (s :: rest) p = some s := by
        rw [findScore_cons, if_pos hs]
      rw [findScore_cons, hRHS, hp, hs]
      by_cases h : q = p
      · rw [if_pos h.symm, if_pos h]
        rfl
      · rw [if_neg (fun hc => h hc.symm), if_neg h, findScore_cons,
          if_neg (show ¬ s.player = q from fun hc => h (hs ▸ hc).symm)]
    · rw [if_neg hs]
      have hRp : findScore (s :: rest) p = findScore rest p := by
        rw [findScore_cons, if_neg hs]
      rw [findScore_cons, findScore_updateScore q p f hp rest, hRp,
        findScore_cons s rest q]
      by_cases h : q = p
      · have hsq : ¬ s.player = q := fun hc => hs (hc.trans h)
        rw [if_neg hsq, if_pos h, if_pos h]
      · rw [if_neg h, if_neg h]

theorem map_player_updateScore (p : Player) (f : Score → Score)
    (hp : ∀ r, (f r).player = r.player) :
    ∀ scores : List Score,
      (updateScore scores p f).map Score.player =
        if p ∈ scores.map Score.player then scores.map Score.player
        else scores.map Score.player ++ [p]
  | [] => by
    rw [updateScore]
    simp [hp, Score.new]
  | s :: rest => by
    rw [updateScore]
    by_cases hs : s.player = p
    · rw [if_pos hs]
      simp [hp, hs]
    · rw [if_neg hs, List.map_cons, map_player_updateScore p f hp rest,
        List.map_cons]
      by_cases hm : p ∈ rest.map Score.player
      · rw [if_pos hm, if_pos (by simp [hm])]
      · have hnm : ¬ p ∈ Score.player s :: rest.map Score.player := by
          intro hc
          rcases List.mem_cons.mp hc with h1 | h2
          · exact hs h1.symm
          · exact hm h2
        rw [if_neg hm, if_neg hnm]
        rfl

-- ----------------------------------------------------- Scoring fold facts ---

theorem occIdxs_cons (q : Player) (i : Nat) (p : Player) (rest : List (Nat × Player)) :
    occIdxs q ((i, p) :: rest) = if p = q then i :: occIdxs q rest else occIdxs q rest := by
  rw [occIdxs, List.filter_cons]
  by_cases h : p = q
  · have hd : (decide ((i, p).2 = q)) = true := by simp [h]
    rw [hd, if_pos rfl, if_pos h, List.map_cons]
    rfl
  · have hd : ¬ ((decide ((i, p).2 = q)) = true) := by simp [h]
    rw [if_neg hd, if_neg h]
    rfl

theorem applyOccs_cons (g : Game) (pts : List Nat) (q : Player) (i : Nat)
    (is : List Nat) (r : Score) :
    applyOccs g pts q (i :: is) r = applyOccs g pts q is (scoreStep g pts i q r) := rfl

theorem foldPairs_cons (g : Game) (pts : List Nat) (i : Nat) (p : Player)
    (rest : List (Nat × Player)) (scores : List Score) :
    foldPairs g pts ((i, p) :: rest) scores =
      foldPairs g pts rest (updateScore scores p (scoreStep g pts i p)) := rfl

theorem findScore_foldPairs (g : Game) (pts : List Nat) (q : Player) :
    ∀ (pairs : List (Nat × Player)) (scores : List Score),
      findScore (foldPairs g pts pairs scores) q =
        match findScore scores q with
        | some r => some (applyOccs g pts q (occIdxs q pairs) r)
        | none =>
          if occIdxs q pairs = [] then none
          else some (applyOccs g pts q (occIdxs q pairs) (Score.new q))
  | [], scores => by
    cases h : findScore scores q with
    | some r => simp [foldPairs, h, applyOccs, occIdxs]
    | none => simp [foldPairs, h, applyOccs, occIdxs]
  | (i, p) :: rest, scores => by
    rw [foldPairs_cons, findScore_foldPairs g pts q rest, occIdxs_cons,
      findScore_updateScore q p (scoreStep g pts i p) (scoreStep_player g pts i p)]
    by_cases h : p = q
    · subst h
      rw [if_pos rfl, if_pos rfl]
      cases horig : findScore scores p with
      | some r => rfl
      | none =>
        have hne : ¬ (i :: occIdxs p rest = []) := by simp
        rw [if_neg hne]
        rfl
    · have hqp : ¬ q = p := fun hc => h hc.symm
      rw [if_neg h, if_neg hqp]

theorem applyOccs_player (g : Game) (pts : List Nat) (q : Player) :
    ∀ (is : List Nat) (r : Score), (applyOccs g pts q is r).player = r.player
  | [], r => rfl
  | i :: is, r => by
    rw [applyOccs_cons, applyOccs_player g pts q is, scoreStep_player]

theorem readSparse_applyOccs (g : Game) (pts : List Nat) (q : Player) (j : Nat)
    (hj : j ≠ g.index) :
    ∀ (is : List Nat) (r : Score),
      readSparse (applyOccs g pts q is r).scores j = readSparse r.scores j ∧
      readSparse (applyOccs g pts q is r).bonusPoints j = readSparse r.bonusPoints j
  | [], r => ⟨rfl, rfl⟩
  | i :: is, r => by
    rw [applyOccs_cons]
    obtain ⟨h1, h2⟩ := readSparse_applyOccs g pts q j hj is (scoreStep g pts i q r)
    constructor
    · rw [h1, scoreStep_scores, readSparse_setSparse_ne _ _ _ _ hj]
    · rw [h2, scoreStep_bonusPoints, readSparse_setSparse_ne _ _ _ _ hj]

theorem applyOccs_wins (g : Game) (pts : List Nat) (q : Player) :
    ∀ (is : List Nat) (r : Score),
      (applyOccs g pts q is r).wins =
        r.wins + is.countP (fun i => decide (i = 0))
  | [], r => by simp [applyOccs]
  | i :: is, r => by
    rw [applyOccs_cons, applyOccs_wins g pts q is, scoreStep_wins,
      List.countP_cons]
    by_cases h : i = 0
    · simp [h]
      omega
    · simp [h]

theorem applyOccs_const_values (g : Game) (pts : List Nat) (q : Player) :
    ∀ (is : List Nat), is ≠ [] →
      ∃ v w, ∀ r : Score,
        (applyOccs g pts q is r).scores = setSparse r.scores g.index v ∧
        (applyOccs g pts q is r).bonusPoints = setSparse r.bonusPoints g.index w
  | [], h => absurd rfl h
  | [i], _ => by
    refine ⟨pts.getD i 0 + (g.calculateFishChipBonus q + g.calculateBountyBonus q),
      g.calculateFishChipBonus q + g.calculateBountyBonus q, fun r => ?_⟩
    rw [applyOccs_cons]
    exact ⟨scoreStep_scores g pts i q r, scoreStep_bonusPoints g pts i q r⟩
  | i :: j :: is, _ => by
    obtain ⟨v, w, hvw⟩ := applyOccs_const_values g pts q (j :: is) (by simp)
    refine ⟨v, w, fun r => ?_⟩
    rw [applyOccs_cons]
    obtain ⟨h1, h2⟩ := hvw (scoreStep g pts i q r)
    constructor
    · rw [h1, scoreStep_scores, setSparse_setSparse]
    · rw [h2, scoreStep_bonusPoints, setSparse_setSparse]

-- ----------------------------------------------------------- Key facts ---

theorem map_player_foldPairs_nodup (g : Game) (pts : List Nat) :
    ∀ (pairs : List (Nat × Player)) (scores : List Score),
      (scores.map Score.player).Nodup →
      ((foldPairs g pts pairs scores).map Score.player).Nodup
  | [], scores, h => h
  | (i, p) :: rest, scores, h => by
    rw [foldPairs_cons]
    apply map_player_foldPairs_nodup g pts rest
    rw [map_player_updateScore p (scoreStep g pts i p) (scoreStep_player g pts i p)]
    by_cases hm : p ∈ scores.map Score.player
    · rw [if_pos hm]
      exact h
    · rw [if_neg hm]
      simp [List.nodup_append, h, hm]

theorem mem_map_player_foldPairs (g : Game) (pts : List Nat) (q : Player) :
    ∀ (pairs : List (Nat × Player)) (scores : List Score),
      q ∈ scores.map Score.player →
      q ∈ (foldPairs g pts pairs scores).map Score.player
  | [], scores, h => h
  | (i, p) :: rest, scores, h => by
    rw [foldPairs_cons]
    apply mem_map_player_foldPairs g pts q rest
    rw [map_player_updateScore p (scoreStep g pts i p) (scoreStep_player g pts i p)]
    by_cases hm : p ∈ scores.map Score.player
    · rw [if_pos hm]
      exact h
    · rw [if_neg hm]
      exact List.mem_append_left _ h

theorem map_player_foldPairs_of_subset (g : Game) (pts : List Nat) :
    ∀ (pairs : List (Nat × Player)) (scores : List Score),
      (∀ ip ∈ pairs, ip.2 ∈ scores.map Score.player) →
      (foldPairs g pts pairs scores).map Score.player = scores.map Score.player
  | [], scores, _ => rfl
  | (i, p) :: rest, scores, h => by
    rw [foldPairs_cons]
    have hm : p ∈ scores.map Score.player := h (i, p) (List.mem_cons_self _ _)
    have hkeys : (updateScore scores p (scoreStep g pts i p)).map Score.player =
        scores.map Score.player := by
      rw [map_player_updateScore p (scoreStep g pts i p) (scoreStep_player g pts i p),
        if_pos hm]
    rw [map_player_foldPairs_of_subset g pts rest _ (fun ip hip => by
      rw [hkeys]; exact h ip (List.mem_cons_of_mem _ hip)), hkeys]

theorem pair_mem_map_player_foldPairs (g : Game) (pts : List Nat) :
    ∀ (pairs : List (Nat × Player)) (scores : List Score) (ip : Nat × Player),
      ip ∈ pairs → ip.2 ∈ (foldPairs g pts pairs scores).map Score.player
  | [], _, ip, h => absurd h (List.not_mem_nil ip)
  | (i, p) :: rest, scores, ip, h => by
    rw [foldPairs_cons]
    rcases List.mem_cons.mp h with h1 | h2
    · apply mem_map_player_foldPairs
      rw [map_player_updateScore p (scoreStep g pts i p) (scoreStep_player g pts i p)]
      have hip2 : ip.2 = p := by rw [h1]
      rw [hip2]
      by_cases hm : p ∈ scores.map Score.player
      · rw [if_pos hm]
        exact hm
      · rw [if_neg hm]
        exact List.mem_append_right _ (List.mem_singleton_self _)
    · exact pair_mem_map_player_foldPairs g pts rest _ ip h2

-- -------------------------------------------- Lookup under permutation ---

theorem findScore_perm {l l' : List Score} (h : List.Perm l l')
    (hnd : (l.map Score.player).Nodup) (q : Player) :
    findScore l q = findScore l' q := by
  cases hF : findScore l q with
  | none =>
    rw [findScore] at hF
    symm
    rw [findScore, List.find?_eq_none]
    intro x hx
    exact List.find?_eq_none.mp hF x (h.mem_iff.mpr hx)
  | some r =>
    rw [findScore] at hF
    have hrl : r ∈ l := List.mem_of_find?_eq_some hF
    have hrq : r.player = q := by simpa using List.find?_some hF
    have hrl' : r ∈ l' := h.mem_iff.mp hrl
    have hsome : (l'.find? (fun s => decide (s.player = q))).isSome :=
      List.find?_isSome.mpr ⟨r, hrl', by simpa using hrq⟩
    obtain ⟨r', hr'⟩ := Option.isSome_iff_exists.mp hsome
    have hr'l : r' ∈ l := h.mem_iff.mpr (List.mem_of_find?_eq_some hr')
    have hr'q : r'.player = q := by simpa using List.find?_some hr'
    have hrr : r' = r :=
      List.inj_on_of_nodup_map hnd hr'l hrl (by rw [hr'q, hrq])
    rw [findScore, hr', hrr]

-- ------------------------------------------------ Winner-position facts ---

theorem countP_zero_occIdxs_enumFrom (q : Player) :
    ∀ (l : List Player) (n : Nat), 1 ≤ n →
      (occIdxs q (l.enumFrom n)).countP (fun i => decide (i = 0)) = 0
  | [], _, _ => rfl
  | a :: l, n, hn => by
    rw [List.enumFrom_cons, occIdxs_cons]
    by_cases h : a = q
    · rw [if_pos h, List.countP_cons,
        countP_zero_occIdxs_enumFrom q l (n + 1) (by omega)]
      have hn0 : ¬ n = 0 := by omega
      simp [hn0]
    · rw [if_neg h]
      exact countP_zero_occIdxs_enumFrom q l (n + 1) (by omega)

theorem countP_zero_occIdxs_enum (q : Player) (l : List Player) :
    (occIdxs q l.enum).countP (fun i => decide (i = 0)) =
      if l.head? = some q then 1 else 0 := by
  cases l with
  | nil => simp [occIdxs]
  | cons w rest =>
    rw [List.enum_cons, occIdxs_cons]
    by_cases h : w = q
    · rw [if_pos h, List.countP_cons,
        countP_zero_occIdxs_enumFrom q rest 1 (by omega)]
      have hh : (w :: rest).head? = some q := by simp [h]
      rw [if_pos hh]
      simp
    · rw [if_neg h, countP_zero_occIdxs_enumFrom q rest 1 (by omega)]
      have hh : ¬ ((w :: rest).head? = some q) := by simp [h]
      rw [if_neg hh]

-- --------------------------------------------------- Idempotence (C7) ---

/-- C7 counterexample: running calculateScores twice on the same Score
collection does not leave it unchanged, because the winner's win counter
is incremented on every invocation. -/
theorem claim_C7_not_idempotent_counterexample :
    gameW1.calculateScores (gameW1.calculateScores []) ≠
      gameW1.calculateScores [] := by decide

/-- C7 as amended: re-running calculateScores with fixed bounty, fish-chip
and knockout inputs rewrites every per-game total and bonus component to
the same values (the record set and its order are unchanged), but the win
counter of the first-place finisher grows by one on every invocation, so
the operation as a whole is not idempotent. -/
theorem claim_C7_idempotent_except_wins (g : Game) (scores : List Score)
    (q : Player) (r₁ : Score)
    (h : findScore (g.calculateScores scores) q = some r₁) :
    (g.calculateScores (g.calculateScores scores)).map Score.player =
      (g.calculateScores scores).map Score.player ∧
    ∃ r₂, findScore (g.calculateScores (g.calculateScores scores)) q = some r₂ ∧
      r₂.player = r₁.player ∧ r₂.scores = r₁.scores ∧
      r₂.bonusPoints = r₁.bonusPoints ∧
      r₂.wins = r₁.wins + (if g.results.head? = some q then 1 else 0) := by
  have hkeys : (g.calculateScores (g.calculateScores scores)).map Score.player =
      (g.calculateScores scores).map Score.player :=
    map_player_foldPairs_of_subset g (Game.pointsTable g.results.length)
      g.results.enum (g.calculateScores scores)
      (fun ip hip =>
        pair_mem_map_player_foldPairs g (Game.pointsTable g.results.length)
          g.results.enum scores ip hip)
  have h2 := findScore_foldPairs g (Game.pointsTable g.results.length) q
    g.results.enum (g.calculateScores scores)
  rw [h] at h2
  have hfields :
      (applyOccs g (Game.pointsTable g.results.length) q
        (occIdxs q g.results.enum) r₁).scores = r₁.scores ∧
      (applyOccs g (Game.pointsTable g.results.length) q
        (occIdxs q g.results.enum) r₁).bonusPoints = r₁.bonusPoints := by
    by_cases hne : occIdxs q g.results.enum = []
    · rw [hne]
      exact ⟨rfl, rfl⟩
    · obtain ⟨v, w, hvw⟩ := applyOccs_const_values g
        (Game.pointsTable g.results.length) q (occIdxs q g.results.enum) hne
      have hfold : findScore (foldPairs g (Game.pointsTable g.results.length)
          g.results.enum scores) q = some r₁ := h
      have h1 := findScore_foldPairs g (Game.pointsTable g.results.length) q
        g.results.enum scores
      have hr₁ : ∃ base, r₁ = applyOccs g (Game.pointsTable g.results.length) q
          (occIdxs q g.results.enum) base := by
        cases horig : findScore scores q with
        | some r₀ =>
          rw [horig] at h1
          exact ⟨r₀, Option.some.inj (hfold.symm.trans h1)⟩
        | none =>
          rw [horig, if_neg hne] at h1
          exact ⟨Score.new q, Option.some.inj (hfold.symm.trans h1)⟩
      obtain ⟨base, hbase⟩ := hr₁
      constructor
      · rw [(hvw r₁).1, hbase, (hvw base).1, setSparse_setSparse]
      · rw [(hvw r₁).2, hbase, (hvw base).2, setSparse_setSparse]
  refine ⟨hkeys,
    applyOccs g (Game.pointsTable g.results.length) q
      (occIdxs q g.results.enum) r₁, h2, applyOccs_player _ _ _ _ _,
    hfields.1, hfields.2, ?_⟩
  rw [applyOccs_wins, countP_zero_occIdxs_enum]

/-- Witness for C7 as amended, at the first fixture game played from an
empty score collection. -/
theorem claim_C7_idempotent_except_wins_witness :
    findScore (gameW1.calculateScores []) playerA =
      some { player := playerA, scores := [some 15]
           , bonusPoints := [some 0], wins := 1 } ∧
    ((gameW1.calculateScores (gameW1.calculateScores [])).map Score.player =
      (gameW1.calculateScores []).map Score.player ∧
    ∃ r₂, findScore (gameW1.calculateScores (gameW1.calculateScores [])) playerA =
        some r₂ ∧
      r₂.player = ({ player := playerA, scores := [some 15]
                   , bonusPoints := [some 0], wins := 1 } : Score).player ∧
      r₂.scores = ({ player := playerA, scores := [some 15]
                   , bonusPoints := [some 0], wins := 1 } : Score).scores ∧
      r₂.bonusPoints = ({ player := playerA, scores := [some 15]
                        , bonusPoints := [some 0], wins := 1 } : Score).bonusPoints ∧
      r₂.wins = ({ player := playerA, scores := [some 15]
                 , bonusPoints := [some 0], wins := 1 } : Score).wins +
        (if gameW1.results.head? = some playerA then 1 else 0)) :=
  ⟨by decide,
   claim_C7_idempotent_except_wins gameW1 [] playerA
     { player := playerA, scores := [some 15], bonusPoints := [some 0], wins := 1 }
     (by decide)⟩

-- ------------------------------------------- Sorted score collection (C9) ---

theorem scoreDescBool_trans : ∀ a b c : Score,
    (fun a b : Score => decide (b.getOverallScore ≤ a.getOverallScore)) a b →
    (fun a b : Score => decide (b.getOverallScore ≤ a.getOverallScore)) b c →
    (fun a b : Score => decide (b.getOverallScore ≤ a.getOverallScore)) a c := by
  intro a b c hab hbc
  simp only [decide_eq_true_eq] at *
  omega

theorem scoreDescBool_total : ∀ a b : Score,
    (fun a b : Score => decide (b.getOverallScore ≤ a.getOverallScore)) a b ||
    (fun a b : Score => decide (b.getOverallScore ≤ a.getOverallScore)) b a := by
  intro a b
  simp only [Bool.or_eq_true, decide_eq_true_eq]
  omega

/-- C9: after addGame with the sort not suppressed, the season's Score
collection is the stable descending sort by overall score of the updated
collection: it is sorted descending by overallScore, it is a permutation
of the pre-sort collection, and records with equal overallScore keep their
pre-sort relative order (the filter at every overall-score value is
unchanged). -/
theorem claim_C9_scores_sorted_stable (s : Season) (g : Game) :
    (s.addGame g false).scores =
      Season.sortScoresFn ((s.prepareGame g).calculateScores s.scores) ∧
    ((s.addGame g false).scores).Pairwise
      (fun a b => b.getOverallScore ≤ a.getOverallScore) ∧
    List.Perm ((s.addGame g false).scores)
      ((s.prepareGame g).calculateScores s.scores) ∧
    ∀ k, ((s.addGame g false).scores).filter
        (fun sc => decide (sc.getOverallScore = k)) =
      ((s.prepareGame g).calculateScores s.scores).filter
        (fun sc => decide (sc.getOverallScore = k)) := by
  refine ⟨rfl, ?_, ?_, ?_⟩
  · exact (List.sorted_mergeSort scoreDescBool_trans scoreDescBool_total
      ((s.prepareGame g).calculateScores s.scores)).imp (fun h => by simpa using h)
  · exact List.mergeSort_perm _ _
  · intro k
    show (((s.prepareGame g).calculateScores s.scores).mergeSort
        (fun a b => decide (b.getOverallScore ≤ a.getOverallScore))).filter
          (fun sc => decide (sc.getOverallScore = k)) = _
    have hsub : List.Sublist
        (((s.prepareGame g).calculateScores s.scores).filter
          (fun sc => decide (sc.getOverallScore = k)))
        ((s.prepareGame g).calculateScores s.scores) :=
      List.filter_sublist _
    have hall : ∀ a ∈ (((s.prepareGame g).calculateScores s.scores).filter
        (fun sc => decide (sc.getOverallScore = k))), a.getOverallScore = k := by
      intro a ha
      simpa using List.of_mem_filter ha
    have hpair : (((s.prepareGame g).calculateScores s.scores).filter
        (fun sc => decide (sc.getOverallScore = k))).Pairwise
          (fun a b => decide (b.getOverallScore ≤ a.getOverallScore) = true) := by
      apply List.pairwise_of_forall_mem_list
      intro a ha b hb
      rw [hall a ha, hall b hb]
      simp
    have hcs := List.sublist_mergeSort scoreDescBool_trans scoreDescBool_total
      hpair hsub
    have hpermf := (List.mergeSort_perm ((s.prepareGame g).calculateScores s.scores)
      (fun a b => decide (b.getOverallScore ≤ a.getOverallScore))).filter
        (fun sc => decide (sc.getOverallScore = k))
    have hself : (((s.prepareGame g).calculateScores s.scores).filter
        (fun sc => decide (sc.getOverallScore = k))).filter
          (fun sc => decide (sc.getOverallScore = k)) =
        ((s.prepareGame g).calculateScores s.scores).filter
          (fun sc => decide (sc.getOverallScore = k)) :=
      List.filter_eq_self.mpr (fun a ha => by simp [hall a ha])
    have hsubf := hself ▸
      (List.Sublist.filter (fun sc : Score => decide (sc.getOverallScore = k)) hcs)
    exact (hsubf.eq_of_length hpermf.length_eq.symm).symm

-- ------------------------------------------------------ Frame effect (C10) ---

theorem prepareGame_index (s : Season) (g : Game) :
    (s.prepareGame g).index = s.games.length := by
  rw [Season.prepareGame]

/-- C10: addGame writes per-game data only at the new game's index: every
record already present keeps all its recorded totals and bonus components
at indices below the new game's index, and its win counter is unchanged
unless the record belongs to the new game's first-place finisher, whose
wins grow by exactly one. -/
theorem claim_C10_add_game_frame (s : Season) (g : Game) (q w : Player)
    (rest : List Player) (r : Score)
    (hres : g.results = w :: rest)
    (hnd : (s.scores.map Score.player).Nodup)
    (hfind : findScore s.scores q = some r) :
    ∃ r', findScore (s.addGame g false).scores q = some r' ∧
      (∀ j, j < s.games.length →
        readSparse r'.scores j = readSparse r.scores j ∧
        readSparse r'.bonusPoints j = readSparse r.bonusPoints j) ∧
      r'.wins = r.wins + (if q = w then 1 else 0) := by
  have hpre := findScore_foldPairs (s.prepareGame g)
    (Game.pointsTable (s.prepareGame g).results.length) q
    ((s.prepareGame g).results.enum) s.scores
  rw [hfind] at hpre
  have hndpre : ((((s.prepareGame g).calculateScores s.scores)).map Score.player).Nodup :=
    map_player_foldPairs_nodup _ _ _ _ hnd
  have hsorted : findScore (s.addGame g false).scores q =
      findScore ((s.prepareGame g).calculateScores s.scores) q := by
    show findScore (Season.sortScoresFn ((s.prepareGame g).calculateScores s.scores)) q = _
    exact (findScore_perm
      (List.mergeSort_perm ((s.prepareGame g).calculateScores s.scores) _).symm
      hndpre q).symm
  refine ⟨applyOccs (s.prepareGame g)
      (Game.pointsTable (s.prepareGame g).results.length) q
      (occIdxs q ((s.prepareGame g).results.enum)) r,
    by rw [hsorted]; exact hpre, ?_, ?_⟩
  · intro j hj
    have hj' : j ≠ (s.prepareGame g).index := by
      rw [prepareGame_index]
      omega
    exact readSparse_applyOccs _ _ _ _ hj' _ _
  · rw [applyOccs_wins, countP_zero_occIdxs_enum, prepareGame_results, hres]
    by_cases hqw : q = w
    · rw [if_pos hqw]
      have : (w :: rest).head? = some q := by simp [hqw]
      rw [if_pos this]
    · rw [if_neg hqw]
      have : ¬ ((w :: rest).head? = some q) := by
        simpa using fun hc => hqw hc.symm
      rw [if_neg this]

/-- Witness for C10: adding the second fixture game to the one-game season
preserves player A's recorded game-0 data and leaves A's win count
unchanged (C wins the second game). -/
theorem claim_C10_add_game_frame_witness :
    gameW2.results = playerC :: [playerA, playerB, playerD, playerE, playerF] ∧
    ((seasonX.scores.map Score.player).Nodup) ∧
    findScore seasonX.scores playerA =
      some { player := playerA, scores := [some 15]
           , bonusPoints := [some 0], wins := 1 } ∧
    (∃ r', findScore (seasonX.addGame gameW2 false).scores playerA = some r' ∧
      (∀ j, j < seasonX.games.length →
        readSparse r'.scores j =
          readSparse ({ player := playerA, scores := [some 15]
                      , bonusPoints := [some 0], wins := 1 } : Score).scores j ∧
        readSparse r'.bonusPoints j =
          readSparse ({ player := playerA, scores := [some 15]
                      , bonusPoints := [some 0], wins := 1 } : Score).bonusPoints j) ∧
      r'.wins = ({ player := playerA, scores := [some 15]
                 , bonusPoints := [some 0], wins := 1 } : Score).wins +
        (if playerA = playerC then 1 else 0)) :=
  ⟨by decide, by decide, by decide,
   claim_C10_add_game_frame seasonX gameW2 playerA playerC
     [playerA, playerB, playerD, playerE, playerF]
     { player := playerA, scores := [some 15], bonusPoints := [some 0], wins := 1 }
     (by decide) (by decide) (by decide)⟩

-- -------------------------------------------- Construction validation (C8) ---

/-- C8 counterexample: the source Game constructor accepts an empty results
list and a duplicate-player results list without any rejection, storing
them verbatim, while the construction the spec demands rejects both with
an InvalidGameError. -/
theorem claim_C8_no_rejection_counterexample :
    (Game.new dateW [] []).results = [] ∧
    (Game.new dateW [playerA, playerA] []).results = [playerA, playerA] ∧
    Game.newChecked dateW [] [] =
      Except.error GameConstructionError.invalidGame ∧
    Game.newChecked dateW [playerA, playerA] [] =
      Except.error GameConstructionError.invalidGame :=
  ⟨rfl, rfl, rfl, rfl⟩

/-- C8 as amended: the Game constructor performs no validation at all:
every results list, the empty and the duplicate-containing ones included,
yields a constructed Game holding the inputs verbatim (no InvalidGameError
exists in the code); the spec-modelled checked construction accepts
exactly the non-empty duplicate-free results lists. -/
theorem claim_C8_constructor_no_validation (d : GameDate)
    (results : List Player) (knockouts : List (Player × Player)) :
    (Game.new d results knockouts).results = results ∧
    (Game.new d results knockouts).knockouts = knockouts ∧
    (Game.new d results knockouts).bountyPlayers = none ∧
    (Game.new d results knockouts).fishChipper = none ∧
    ((∃ g, Game.newChecked d results knockouts = Except.ok g) ↔
      results ≠ [] ∧ results.Nodup) := by
  refine ⟨rfl, rfl, rfl, rfl, ?_⟩
  rw [Game.newChecked]
  by_cases h : results.isEmpty ∨ ¬ results.Nodup
  · rw [if_pos h]
    constructor
    · rintro ⟨g, hg⟩
      exact Except.noConfusion hg
    · rintro ⟨hne, hnd⟩
      rcases h with h1 | h2
      · exact absurd (List.isEmpty_iff.mp h1) hne
      · exact absurd hnd h2
  · rw [if_neg h]
    constructor
    · intro _
      constructor
      · intro hc
        exact h (Or.inl (by rw [hc]; rfl))
      · by_contra hc
        exact h (Or.inr hc)
    · intro _
      exact ⟨Game.new d results knockouts, rfl⟩

-- ------------------------------------------------- Season round trip (C6) ---

theorem prepareGame_date (s : Season) (g : Game) :
    (s.prepareGame g).date = g.date := by
  rw [Season.prepareGame]
  cases h : s.games.getLast? <;> rfl

theorem prepareGame_knockouts (s : Season) (g : Game) :
    (s.prepareGame g).knockouts = g.knockouts := by
  rw [Season.prepareGame]
  cases h : s.games.getLast? <;> rfl

theorem toObject_prepareGame (s : Season) (g : Game) :
    Game.toObject (s.prepareGame g) = Game.toObject g := by
  rw [Game.toObject, Game.toObject, prepareGame_date, prepareGame_results,
    prepareGame_knockouts]

theorem addGame_games (s : Season) (g : Game) (b : Bool) :
    (s.addGame g b).games = s.games ++ [s.prepareGame g] := rfl

theorem build_append (name : String) (gs : List Game) (g : Game) :
    Season.build name (gs ++ [g]) = (Season.build name gs).addGame g false := by
  rw [Season.build, Season.build, List.foldl_append]
  rfl

theorem fromObject_append (players : List Player) (name : String)
    (objs : List GameObject) (o : GameObject) :
    Season.fromObject players ⟨name, objs ++ [o]⟩ =
      (Season.fromObject players ⟨name, objs⟩).addGame
        (Game.fromObject players o) false := by
  rw [Season.fromObject, Season.fromObject, List.foldl_append]
  rfl

theorem fromObject_toObject_game (players : List Player) (g : Game)
    (hidx : g.index = 0) (hb : g.bountyPlayers = none) (hf : g.fishChipper = none)
    (hres : ∀ p ∈ g.results, resolvePlayer players p.id = p)
    (hko : ∀ ko ∈ g.knockouts,
      resolvePlayer players ko.1.id = ko.1 ∧ resolvePlayer players ko.2.id = ko.2) :
    Game.fromObject players (Game.toObject g) = g := by
  rw [Game.fromObject, Game.toObject, Game.new]
  cases g with
  | mk index date results knockouts bountyPlayers fishChipper =>
    simp only [Game.mk.injEq]
    refine ⟨hidx.symm, ?_, ?_, ?_, hb.symm, hf.symm⟩
    · cases date with
      | mk y m d => simp
    · rw [List.map_map]
      have hcg : ∀ p ∈ results, (resolvePlayer players ∘ Player.id) p = id p := by
        intro p hp
        simpa using hres p hp
      rw [List.map_congr_left hcg, List.map_id]
    · rw [List.map_map]
      have hcg : ∀ ko ∈ knockouts,
          ((fun ko => (resolvePlayer players ko.1, resolvePlayer players ko.2)) ∘
            (fun ko : Player × Player => (ko.1.id, ko.2.id))) ko = id ko := by
        intro ko hko2
        obtain ⟨h1, h2⟩ := hko ko hko2
        cases ko with
        | mk a b =>
          simp only [Function.comp, id]
          simp only [Prod.mk.injEq]
          exact ⟨h1, h2⟩
      rw [List.map_congr_left hcg, List.map_id]

theorem season_round_trip_aux (players : List Player) (name : String) :
    ∀ gs : List Game,
      (∀ g ∈ gs, g.index = 0 ∧ g.bountyPlayers = none ∧ g.fishChipper = none) →
      (∀ g ∈ gs,
        (∀ p ∈ g.results, resolvePlayer players p.id = p) ∧
        (∀ ko ∈ g.knockouts,
          resolvePlayer players ko.1.id = ko.1 ∧
          resolvePlayer players ko.2.id = ko.2)) →
      Season.fromObject players (Season.build name gs).toObject =
        Season.build name gs := by
  intro gs
  induction gs using List.reverseRecOn with
  | nil =>
    intro _ _
    rfl
  | append_singleton gs g ih =>
    intro hfresh hdir
    have hfresh' : ∀ g' ∈ gs,
        g'.index = 0 ∧ g'.bountyPlayers = none ∧ g'.fishChipper = none :=
      fun g' hg' => hfresh g' (List.mem_append_left _ hg')
    have hdir' : ∀ g' ∈ gs,
        (∀ p ∈ g'.results, resolvePlayer players p.id = p) ∧
        (∀ ko ∈ g'.knockouts,
          resolvePlayer players ko.1.id = ko.1 ∧
          resolvePlayer players ko.2.id = ko.2) :=
      fun g' hg' => hdir g' (List.mem_append_left _ hg')
    have hg : g ∈ gs ++ [g] := List.mem_append_right _ (List.mem_singleton_self g)
    obtain ⟨hidx, hb, hf⟩ := hfresh g hg
    obtain ⟨hres, hko⟩ := hdir g hg
    rw [build_append]
    have htoObj : ((Season.build name gs).addGame g false).toObject =
        SeasonObject.mk (Season.build name gs).name
          ((Season.build name gs).games.map Game.toObject ++ [Game.toObject g]) := by
      rw [Season.toObject, addGame_games, List.map_append]
      rw [show ([(Season.build name gs).prepareGame g].map Game.toObject) =
          [Game.toObject g] from by
        rw [List.map_cons, List.map_nil, toObject_prepareGame]]
      rfl
    rw [htoObj, fromObject_append]
    have hobj : (⟨(Season.build name gs).name,
        (Season.build name gs).games.map Game.toObject⟩ : SeasonObject) =
        (Season.build name gs).toObject := by
      rw [Season.toObject]
    rw [hobj, ih hfresh' hdir',
      fromObject_toObject_game players g hidx hb hf hres hko]

/-- C6: serializing a season built by replaying addGame over fresh games to
the persisted record shape and rehydrating it against the same player
directory reproduces the very same Season, so every Score record (hence
every aggregate read from it) and every game's re-derived bountyPlayers
and fishChipper coincide with the original's. -/
theorem claim_C6_season_round_trip (players : List Player) (name : String)
    (gs : List Game)
    (hfresh : ∀ g ∈ gs, g.index = 0 ∧ g.bountyPlayers = none ∧ g.fishChipper = none)
    (hdir : ∀ g ∈ gs,
      (∀ p ∈ g.results, resolvePlayer players p.id = p) ∧
      (∀ ko ∈ g.knockouts,
        resolvePlayer players ko.1.id = ko.1 ∧
        resolvePlayer players ko.2.id = ko.2)) :
    Season.fromObject players (Season.build name gs).toObject =
      Season.build name gs :=
  season_round_trip_aux players name gs hfresh hdir

/-- Witness for C6: the two fixture games round trip through the persisted
record shape against the fixture directory. -/
theorem claim_C6_season_round_trip_witness :
    (∀ g ∈ [gameW1, gameW2],
      g.index = 0 ∧ g.bountyPlayers = none ∧ g.fishChipper = none) ∧
    (∀ g ∈ [gameW1, gameW2],
      (∀ p ∈ g.results, resolvePlayer directoryW p.id = p) ∧
      (∀ ko ∈ g.knockouts,
        resolvePlayer directoryW ko.1.id = ko.1 ∧
        resolvePlayer directoryW ko.2.id = ko.2)) ∧
    Season.fromObject directoryW (Season.build "league" [gameW1, gameW2]).toObject =
      Season.build "league" [gameW1, gameW2] :=
  ⟨by decide, by decide,
   claim_C6_season_round_trip directoryW "league" [gameW1, gameW2]
     (by decide) (by decide)⟩
